import Mathlib

/-!
Verification development for the Loom market LP agent (ts-bots repository).

The TypeScript sources are embedded shallowly:

* JavaScript floating-point numbers are modelled as rationals (`ℚ`); the
  transcendental `Math.log` is modelled as an explicit function parameter
  `log : ℚ → ℚ` so that every theorem quantifies over the log model, and
  concrete instances stand in for the float evaluation at the inputs used.
* `Math.round` is round-half-up, `Math.floor` and `Math.ceil` are the usual
  integer floor and ceiling on rationals.
* A JavaScript number that may be `NaN` (the likelihood input) is modelled by
  `JsNum`, whose `nan` constructor makes every comparison false, exactly as
  `NaN` does in JavaScript.
* Fallible code (a `throw` inside `try`, chain reads and writes) is modelled
  with `Except LoomErr`; external chain responses are passed in as
  `Except`-valued fields of an environment record.
-/

namespace Loom

/-- Error taxonomy of the bot, corresponding to the thrown errors in the
source (`Invalid likelihood`, `Invalid tick range`, chain read and write
failures, missing token id on close). -/
inductive LoomErr where
  | invalidLikelihood
  | invalidTickRange
  | chainRead
  | chainWrite
  | missingTokenId
deriving DecidableEq, Repr

/-- A JavaScript number that may be `NaN`.  Comparisons against `nan` are
false, as in JavaScript. -/
inductive JsNum where
  | nan
  | val (r : ℚ)
deriving DecidableEq, Repr

/-- JavaScript `Math.round`: round half towards positive infinity. -/
def jsRound (q : ℚ) : ℤ := ⌊q + 1/2⌋

namespace PriceModel

/-- `PriceModel.isValidLikelihood` from `src/packages/loom/src/index.ts`:
`likelihood >= 0 && likelihood <= 1 && !isNaN(likelihood)`.  For `NaN` both
comparisons are false in JavaScript, so the conjunction is false. -/
def isValidLikelihood : JsNum → Bool
  | .nan => false
  | .val r => decide (0 ≤ r) && decide (r ≤ 1)

/-- `PriceModel.likelihoodToPrice`: throws on an invalid likelihood,
otherwise clamps to `[minPrice, maxPrice]`
(`Math.max(minPrice, Math.min(maxPrice, likelihood))`).  The source defaults
are `minPrice = 0.01`, `maxPrice = 0.99`; they are passed explicitly here. -/
def likelihoodToPrice (likelihood : JsNum) (minPrice maxPrice : ℚ) :
    Except LoomErr ℚ :=
  match likelihood with
  | .nan => .error .invalidLikelihood
  | .val r =>
    if isValidLikelihood (.val r) then .ok (max minPrice (min maxPrice r))
    else .error .invalidLikelihood

/-- The protocol tick spacing, a fixed constant (200) in the source. -/
def tickSpacing : ℤ := 200

/-- `PriceModel.nearestUsableTick`:
`Math.round(tick / tickSpacing) * tickSpacing`. -/
def nearestUsableTick (tick : ℤ) (spacing : ℤ) : ℤ :=
  jsRound ((tick : ℚ) / (spacing : ℚ)) * spacing

/-- Lower price bound of `PriceModel.priceToTicks` step 1:
`Math.max(epsilon, targetPrice - halfRange)` with `epsilon = 1e-6` and
`halfRange = concentrationRange / 2`. -/
def lowerPrice (targetPrice concentrationRange : ℚ) : ℚ :=
  max (1/1000000) (targetPrice - concentrationRange / 2)

/-- Upper price bound of `PriceModel.priceToTicks` step 1:
`Math.min(1 - epsilon, targetPrice + halfRange)`. -/
def upperPrice (targetPrice concentrationRange : ℚ) : ℚ :=
  min (1 - 1/1000000) (targetPrice + concentrationRange / 2)

/-- Raw (unsnapped) lower tick: `Math.log(lowerPrice) / Math.log(1.0001)`. -/
def rawLowerTick (log : ℚ → ℚ) (targetPrice concentrationRange : ℚ) : ℚ :=
  log (lowerPrice targetPrice concentrationRange) / log (10001/10000)

/-- Raw (unsnapped) upper tick: `Math.log(upperPrice) / Math.log(1.0001)`. -/
def rawUpperTick (log : ℚ → ℚ) (targetPrice concentrationRange : ℚ) : ℚ :=
  log (upperPrice targetPrice concentrationRange) / log (10001/10000)

/-- Snapped lower tick:
`nearestUsableTick(Math.floor(rawLowerTick), tickSpacing)`. -/
def snappedLowerTick (log : ℚ → ℚ) (targetPrice concentrationRange : ℚ) : ℤ :=
  nearestUsableTick ⌊rawLowerTick log targetPrice concentrationRange⌋ tickSpacing

/-- Snapped upper tick:
`nearestUsableTick(Math.ceil(rawUpperTick), tickSpacing)`. -/
def snappedUpperTick (log : ℚ → ℚ) (targetPrice concentrationRange : ℚ) : ℤ :=
  nearestUsableTick ⌈rawUpperTick log targetPrice concentrationRange⌉ tickSpacing

/-- The `try` block of `PriceModel.priceToTicks`: compute the snapped range,
clamp to the market tick bounds when both are supplied (falling back to the
full bound range when clamping inverts the range), and throw
`Invalid tick range` when the final range is still inverted. -/
def priceToTicksTry (log : ℚ → ℚ) (targetPrice concentrationRange : ℚ)
    (baseAssetMinPriceTick baseAssetMaxPriceTick : Option ℤ) :
    Except LoomErr (ℤ × ℤ) :=
  let l0 := snappedLowerTick log targetPrice concentrationRange
  let u0 := snappedUpperTick log targetPrice concentrationRange
  let lu :=
    match baseAssetMinPriceTick, baseAssetMaxPriceTick with
    | some mn, some mx =>
      let l := max l0 mn
      let u := min u0 mx
      if l ≥ u then (mn, mx) else (l, u)
    | _, _ => (l0, u0)
  if lu.1 ≥ lu.2 then .error .invalidTickRange
  else .ok lu

/-- The fallback range of the `catch` branch when no market bounds are
supplied: `fallbackRange = Math.floor(1000 / tickSpacing) * tickSpacing`,
then `currentTick ± fallbackRange` snapped to the spacing. -/
def fallbackTicks (currentTick : ℤ) : ℤ × ℤ :=
  let fallbackRange := ⌊(1000 : ℚ) / (tickSpacing : ℚ)⌋ * tickSpacing
  (nearestUsableTick (currentTick - fallbackRange) tickSpacing,
   nearestUsableTick (currentTick + fallbackRange) tickSpacing)

/-- `PriceModel.priceToTicks`: the `try` block above with its `catch`
handler.  On any internal throw, the market bounds are returned verbatim when
both are supplied, otherwise the fixed-width fallback range around
`currentTick` is returned. -/
def priceToTicks (log : ℚ → ℚ) (targetPrice : ℚ) (currentTick : ℤ)
    (concentrationRange : ℚ)
    (baseAssetMinPriceTick baseAssetMaxPriceTick : Option ℤ) : ℤ × ℤ :=
  match priceToTicksTry log targetPrice concentrationRange
      baseAssetMinPriceTick baseAssetMaxPriceTick with
  | .ok r => r
  | .error _ =>
    match baseAssetMinPriceTick, baseAssetMaxPriceTick with
    | some mn, some mx => (mn, mx)
    | _, _ => fallbackTicks currentTick

end PriceModel

namespace AttestationParser

/-- `AttestationParser.likelihoodToPrice` from
`src/packages/loom/src/services/LPManager.ts`: textually identical to
`PriceModel.likelihoodToPrice`. -/
def likelihoodToPrice (likelihood : JsNum) (minPrice maxPrice : ℚ) :
    Except LoomErr ℚ :=
  match likelihood with
  | .nan => .error .invalidLikelihood
  | .val r =>
    if PriceModel.isValidLikelihood (.val r) then
      .ok (max minPrice (min maxPrice r))
    else .error .invalidLikelihood

/-- Lower price bound of `AttestationParser.priceToTicks`:
`targetPrice * (1 - halfRange)` — multiplicative, with no epsilon clamp,
unlike the `PriceModel` variant. -/
def lowerPrice (targetPrice concentrationRange : ℚ) : ℚ :=
  targetPrice * (1 - concentrationRange / 2)

/-- Upper price bound of `AttestationParser.priceToTicks`:
`targetPrice * (1 + halfRange)`. -/
def upperPrice (targetPrice concentrationRange : ℚ) : ℚ :=
  targetPrice * (1 + concentrationRange / 2)

/-- Raw lower tick of the attestation variant. -/
def rawLowerTick (log : ℚ → ℚ) (targetPrice concentrationRange : ℚ) : ℚ :=
  log (lowerPrice targetPrice concentrationRange) / log (10001/10000)

/-- Raw upper tick of the attestation variant. -/
def rawUpperTick (log : ℚ → ℚ) (targetPrice concentrationRange : ℚ) : ℚ :=
  log (upperPrice targetPrice concentrationRange) / log (10001/10000)

/-- The `try` block of `AttestationParser.priceToTicks`; identical control
flow to the `PriceModel` variant, differing only in the price bound
computation. -/
def priceToTicksTry (log : ℚ → ℚ) (targetPrice concentrationRange : ℚ)
    (baseAssetMinPriceTick baseAssetMaxPriceTick : Option ℤ) :
    Except LoomErr (ℤ × ℤ) :=
  let l0 := PriceModel.nearestUsableTick
    ⌊rawLowerTick log targetPrice concentrationRange⌋ PriceModel.tickSpacing
  let u0 := PriceModel.nearestUsableTick
    ⌈rawUpperTick log targetPrice concentrationRange⌉ PriceModel.tickSpacing
  let lu :=
    match baseAssetMinPriceTick, baseAssetMaxPriceTick with
    | some mn, some mx =>
      let l := max l0 mn
      let u := min u0 mx
      if l ≥ u then (mn, mx) else (l, u)
    | _, _ => (l0, u0)
  if lu.1 ≥ lu.2 then .error .invalidTickRange
  else .ok lu

/-- `AttestationParser.priceToTicks` with its `catch` handler. -/
def priceToTicks (log : ℚ → ℚ) (targetPrice : ℚ) (currentTick : ℤ)
    (concentrationRange : ℚ)
    (baseAssetMinPriceTick baseAssetMaxPriceTick : Option ℤ) : ℤ × ℤ :=
  match priceToTicksTry log targetPrice concentrationRange
      baseAssetMinPriceTick baseAssetMaxPriceTick with
  | .ok r => r
  | .error _ =>
    match baseAssetMinPriceTick, baseAssetMaxPriceTick with
    | some mn, some mx => (mn, mx)
    | _, _ => PriceModel.fallbackTicks currentTick

end AttestationParser

/-- The derived, ephemeral price range record returned by
`LPManager.calculatePriceRange`. -/
structure PriceRange where
  lower : ℚ
  upper : ℚ
  center : ℚ
deriving DecidableEq, Repr

namespace LPManager

/-- `LPManager.calculatePriceRange`:
`lower = Math.max(epsilon, targetPrice - halfRange)`,
`upper = Math.min(1 - epsilon, targetPrice + halfRange)`,
`center = targetPrice`, with `epsilon = 1e-6` and
`halfRange = config.lpManagement.concentrationRange / 2`. -/
def calculatePriceRange (concentrationRange targetPrice : ℚ) : PriceRange :=
  { lower := max (1/1000000) (targetPrice - concentrationRange / 2)
    upper := min (1 - 1/1000000) (targetPrice + concentrationRange / 2)
    center := targetPrice }

/-- `LPManager.isPriceOutsideDeviation`:
`Math.abs(currentPrice - targetPrice) / targetPrice > deviationThreshold`. -/
def isPriceOutsideDeviation (deviationThreshold currentPrice targetPrice : ℚ) :
    Bool :=
  decide (|currentPrice - targetPrice| / targetPrice > deviationThreshold)

end LPManager

/-- A position record as enumerated on chain (the tuple returned by
`sapience.getPosition`, restricted to the fields the bot reads:
`kind` (1 = LP, 2 = Trader), owning `marketId` and the settled flag). -/
structure ChainPosition where
  tokenId : ℕ
  kind : ℕ
  marketId : ℕ
  isSettled : Bool
deriving DecidableEq, Repr

/-- The local `LPPosition` entity of the bot. -/
structure LPPosition where
  marketId : ℕ
  tokenId : Option ℕ
  lowerTick : ℤ
  upperTick : ℤ
  liquidity : ℤ
  targetPrice : ℚ
  createdAt : ℤ
  lastUpdated : ℤ
  isActive : Bool
deriving DecidableEq, Repr

namespace LPManager

/-- `LPManager.getCurrentLPPosition`: enumerate the positions owned by the
wallet (`balanceOf` / `tokenOfOwnerByIndex` / `getPosition`) and return the
first active LP position (`kind == 1`, not settled) for the given market,
or `null` when none matches.  The enumerated list is the fresh chain read. -/
def getCurrentLPPosition (positions : List ChainPosition) (marketId : ℕ) :
    Option ChainPosition :=
  positions.find? fun p =>
    p.kind == 1 && !p.isSettled && p.marketId == marketId

/-- Outcome record of `closeLPPosition`: the (possibly mutated) local
entity, whether the chain-write call (`closeLiquidityPosition`) was issued
and whether the `positionClosed` event was emitted. -/
structure CloseOutcome where
  position : LPPosition
  chainWriteIssued : Bool
  positionClosedEmitted : Bool
deriving DecidableEq, Repr

/-- `LPManager.closeLPPosition`: requires a token id; re-reads the on-chain
position record (`getPositionRead` is the chain response); when the record
kind is not 1 (liquidity) or the record is already settled, logs and returns
without issuing any chain write, leaving the entity untouched; otherwise
submits the close call, waits (`closeTx` is the confirmation result), marks
the entity inactive, stamps `lastUpdated` and emits `positionClosed`. -/
def closeLPPosition (getPositionRead : Except LoomErr ChainPosition)
    (closeTx : Except LoomErr Unit) (position : LPPosition) (now : ℤ) :
    Except LoomErr CloseOutcome :=
  match position.tokenId with
  | none => .error .missingTokenId
  | some _ =>
    match getPositionRead with
    | .error e => .error e
    | .ok record =>
      if record.kind != 1 || record.isSettled then
        .ok { position := position
              chainWriteIssued := false
              positionClosedEmitted := false }
      else
        match closeTx with
        | .error e => .error e
        | .ok _ =>
          .ok { position :=
                  { position with isActive := false, lastUpdated := now }
                chainWriteIssued := true
                positionClosedEmitted := true }

end LPManager

namespace PositionTracker

/-- The per-position monitoring bookkeeping: the consecutive-deviation
counter and `lastChecked` from `PositionState`, together with the cooldown
expiry entry of the `cooldownEndTimes` map (`none` when absent). -/
structure TrackedPosition where
  consecutiveDeviations : ℕ
  cooldownEnd : Option ℤ
  lastChecked : ℤ
deriving DecidableEq, Repr

/-- `PositionTracker.isInCooldown`: the cooldown entry exists and the
current time is before it. -/
def isInCooldown (cooldownEnd : Option ℤ) (now : ℤ) : Bool :=
  match cooldownEnd with
  | some endTime => decide (now < endTime)
  | none => false

/-- `PositionTracker.getRequiredConsecutiveDeviations`: the constant 2. -/
def requiredConsecutiveDeviations : ℕ := 2

/-- One monitoring tick for a single tracked active position, as performed
by `checkAllPositions` / `checkPosition`: skip entirely when in cooldown;
otherwise, on a deviating price read increment the counter and, when it
reaches the required threshold, emit an adjustment (the returned flag),
reset the counter and set the cooldown to `now + cooldownPeriod`; on an
in-range read reset the counter.  Returns the new bookkeeping state and
whether `positionNeedsAdjustment` was emitted. -/
def checkTick (deviationThreshold : ℚ) (cooldownPeriod : ℤ)
    (st : TrackedPosition) (targetPrice currentPrice : ℚ) (now : ℤ) :
    TrackedPosition × Bool :=
  if isInCooldown st.cooldownEnd now then (st, false)
  else if LPManager.isPriceOutsideDeviation deviationThreshold currentPrice
      targetPrice then
    if st.consecutiveDeviations + 1 ≥ requiredConsecutiveDeviations then
      ({ consecutiveDeviations := 0
         cooldownEnd := some (now + cooldownPeriod)
         lastChecked := now }, true)
    else
      ({ st with consecutiveDeviations := st.consecutiveDeviations + 1
                 lastChecked := now }, false)
  else
    ({ st with consecutiveDeviations := 0, lastChecked := now }, false)

/-- One item of the `checkAllPositions` batch: a tracked position together
with the external responses its check consumes (the current price derived
from `getMarketData` + `sqrtPriceToPrice`, which may fail). -/
structure CheckItem where
  state : TrackedPosition
  targetPrice : ℚ
  priceRead : Except LoomErr ℚ
  now : ℤ

/-- The body of `checkPosition` without its own catch: read the price, then
apply the deviation state machine. -/
def checkPositionE (deviationThreshold : ℚ) (cooldownPeriod : ℤ)
    (item : CheckItem) : Except LoomErr (TrackedPosition × Bool) :=
  match item.priceRead with
  | .error e => .error e
  | .ok price =>
    .ok (checkTick deviationThreshold cooldownPeriod item.state
      item.targetPrice price item.now)

/-- `PositionTracker.checkAllPositions`: iterate over the tracked positions;
each `checkPosition` call catches its own errors (logging them and leaving
the state unchanged, with no emission), so the iteration always continues
to the next position. -/
def checkAllPositions (deviationThreshold : ℚ) (cooldownPeriod : ℤ) :
    List CheckItem → List (TrackedPosition × Bool)
  | [] => []
  | item :: rest =>
    (match checkPositionE deviationThreshold cooldownPeriod item with
     | .error _ => (item.state, false)
     | .ok r => r) :: checkAllPositions deviationThreshold cooldownPeriod rest

end PositionTracker

/-- A market summary as returned by the GraphQL market-listing query
(`MARKETS_QUERY`), restricted to the fields `runOnce` reads. -/
structure MarketSummary where
  marketId : ℕ
  groupAddress : Option ℕ
  collateralAsset : Option ℕ
  endTimestamp : Option ℤ
deriving DecidableEq, Repr

/-- The fields of `getMarketData` consumed by the agent loop: the market
tick bounds and the pool price (after `sqrtPriceToPrice`). -/
structure MarketDataLite where
  baseAssetMinPriceTick : ℤ
  baseAssetMaxPriceTick : ℤ
  currentPrice : ℚ
deriving DecidableEq, Repr

/-- The external responses consumed while processing one market in
`MarketLPAgent.runOnce`: the fresh position enumeration read from the
contract, the collateral balance read, the oracle probability, the market
data read and the result of the creation transaction. -/
structure MarketEnv where
  chainPositions : Except LoomErr (List ChainPosition)
  balance : Except LoomErr ℤ
  probabilityYes : Except LoomErr ℚ
  marketData : Except LoomErr MarketDataLite
  createOk : Except LoomErr Unit

/-- The per-market outcome of one `runOnce` iteration. -/
inductive MarketAction where
  | skippedNoAddress
  | skippedExpired
  | skippedExisting
  | skippedNoCollateral
  | stoppedInsufficient
  | skippedDryRun
  | created (lowerTick upperTick : ℤ)
deriving DecidableEq, Repr

/-- Whether a per-market outcome issued any chain-write call.  Only the
`created` path reaches `createLPPosition` (and its approval sub-protocol);
every skip happens before any write. -/
def issuesChainWrite : MarketAction → Bool
  | .created _ _ => true
  | _ => false

/-- The expiry guard of `runOnce`: skip when `endTimestamp` is present and
`now > endSec`. -/
def expiredSkip (now : ℤ) (m : MarketSummary) : Bool :=
  match m.endTimestamp with
  | some endSec => decide (now > endSec)
  | none => false

/-- `currentTick = Math.floor(Math.log(currentPrice) / Math.log(1.0001))`
as computed in `runOnce` (and `LoomBot.processAttestation`). -/
def currentTickOf (log : ℚ → ℚ) (price : ℚ) : ℤ :=
  ⌊log price / log (10001/10000)⌋

namespace MarketLPAgent

/-- The body of the per-market loop iteration of `MarketLPAgent.runOnce`
(`src/unnamed/part_002`), in source order: skip on a missing group address;
skip expired markets; re-read the position enumeration from the contract
and skip when an active LP position for this market already exists; skip on
a missing collateral asset; stop the run when the balance read succeeds and
is below the required collateral (a failed balance read is caught and the
market is attempted anyway); otherwise ask the oracle, read market data,
convert the likelihood to a target price (an invalid likelihood throws,
uncaught), derive the tick range, honor the dry-run flag, and create the
position.  There is no catch around this body: any error propagates. -/
def processMarket (log : ℚ → ℚ) (concentrationRange : ℚ)
    (requiredCollateral : ℤ) (now : ℤ) (dryRun : Bool) (env : MarketEnv)
    (m : MarketSummary) : Except LoomErr MarketAction :=
  match m.groupAddress with
  | none => .ok .skippedNoAddress
  | some _ =>
    if expiredSkip now m then .ok .skippedExpired
    else
      match env.chainPositions with
      | .error e => .error e
      | .ok positions =>
        match LPManager.getCurrentLPPosition positions m.marketId with
        | some _ => .ok .skippedExisting
        | none =>
          match m.collateralAsset with
          | none => .ok .skippedNoCollateral
          | some _ =>
            let proceed : Except LoomErr MarketAction :=
              match env.probabilityYes with
              | .error e => .error e
              | .ok likelihood =>
                match env.marketData with
                | .error e => .error e
                | .ok md =>
                  match PriceModel.likelihoodToPrice (.val likelihood)
                      (1/100) (99/100) with
                  | .error e => .error e
                  | .ok targetPrice =>
                    let currentTick := currentTickOf log md.currentPrice
                    let lu := PriceModel.priceToTicks log targetPrice
                      currentTick concentrationRange
                      (some md.baseAssetMinPriceTick)
                      (some md.baseAssetMaxPriceTick)
                    if dryRun then .ok .skippedDryRun
                    else
                      match env.createOk with
                      | .error e => .error e
                      | .ok _ => .ok (.created lu.1 lu.2)
            match env.balance with
            | .error _ => proceed
            | .ok b =>
              if b < requiredCollateral then .ok .stoppedInsufficient
              else proceed

/-- The market loop of `runOnce`: process markets in order; an
`stoppedInsufficient` outcome breaks the loop; an error from one market
body aborts the whole run (there is no per-market catch in the source; the
only catch is around the entire `agent.runOnce()` call). -/
def runOnceLoop (step : MarketSummary → Except LoomErr MarketAction) :
    List MarketSummary → Except LoomErr (List MarketAction)
  | [] => .ok []
  | m :: rest =>
    match step m with
    | .error e => .error e
    | .ok a =>
      if a = .stoppedInsufficient then .ok [a]
      else
        match runOnceLoop step rest with
        | .error e => .error e
        | .ok as => .ok (a :: as)

end MarketLPAgent

/-- Modelled from the spec: the effect on the owned-position enumeration of
a successful `createLiquidityPosition` call (the on-chain mint is external
to the repository).  The spec states that open-position preconditions are
queried from the external contract position enumeration and that a
successful creation mints a new, unsettled liquidity (kind 1) position for
the market, appended to the owner enumeration. -/
def chainAfterCreate (positions : List ChainPosition) (tokenId marketId : ℕ) :
    List ChainPosition :=
  positions ++ [{ tokenId := tokenId, kind := 1, marketId := marketId,
                  isSettled := false }]

/-! ### Concrete instances used by witnesses and counterexamples -/

/-- A degenerate log model (constant 1): under it both raw ticks equal 1 and
both snapped ticks equal 0, which exercises the degenerate-range paths of
`priceToTicks` independently of the numeric value of the float logarithm. -/
def logStub : ℚ → ℚ := fun _ => 1

/-- A log model agreeing with the float `Math.log` to six decimal places at
the two points `priceToTicks` evaluates it for
`targetPrice = 0.98`, `concentrationRange = 0.01`:
`Math.log(1.0001) ≈ 0.000099995` and `Math.log(0.975) ≈ -0.0253178`. -/
def logAt975 : ℚ → ℚ := fun q =>
  if q = 10001/10000 then 99995/1000000000
  else if q = 39/40 then -253178/10000000
  else 0

/-- A log model agreeing with the float `Math.log` to six decimal places at
the three points `priceToTicks` evaluates it for `targetPrice = 0.5`,
`concentrationRange = 0.05`: `Math.log(1.0001) ≈ 0.000099995`,
`Math.log(0.475) ≈ -0.744440`, `Math.log(0.525) ≈ -0.644357`. -/
def logHalf : ℚ → ℚ := fun q =>
  if q = 10001/10000 then 99995/1000000000
  else if q = 19/40 then -744440/1000000
  else if q = 21/40 then -644357/1000000
  else 0

/-- A concrete local position entity used by witnesses. -/
def posW : LPPosition :=
  { marketId := 3, tokenId := some 7, lowerTick := -400, upperTick := 200,
    liquidity := 5, targetPrice := 1/2, createdAt := 0, lastUpdated := 0,
    isActive := true }

/-- A market whose chain reads fail (`getCurrentLPPosition` throws). -/
def mFail : MarketSummary :=
  { marketId := 1, groupAddress := some 1, collateralAsset := some 1,
    endTimestamp := none }

/-- A market whose processing succeeds end to end. -/
def mGood : MarketSummary :=
  { marketId := 2, groupAddress := some 1, collateralAsset := some 1,
    endTimestamp := none }

/-- External responses for `mFail`: the position enumeration read fails. -/
def envFail : MarketEnv :=
  { chainPositions := .error .chainRead, balance := .ok 1000,
    probabilityYes := .ok (73/100),
    marketData := .ok { baseAssetMinPriceTick := -16000,
                        baseAssetMaxPriceTick := -200, currentPrice := 1/2 },
    createOk := .ok () }

/-- External responses for `mGood`: everything succeeds. -/
def envGood : MarketEnv :=
  { chainPositions := .ok [], balance := .ok 1000,
    probabilityYes := .ok (73/100),
    marketData := .ok { baseAssetMinPriceTick := -16000,
                        baseAssetMaxPriceTick := -200, currentPrice := 1/2 },
    createOk := .ok () }

/-- The concrete per-market step of the scan used in the batch-policy
counterexample: market 1 hits the failing chain read, every other market
gets the succeeding environment. -/
def stepEx (m : MarketSummary) : Except LoomErr MarketAction :=
  MarketLPAgent.processMarket logStub (1/20) 100 0 false
    (if m.marketId = 1 then envFail else envGood) m

/-- External responses for the duplicate-guard witness: the fresh position
enumeration already contains the position minted by the first, successful
invocation for market 2. -/
def envDup : MarketEnv :=
  { chainPositions := .ok (chainAfterCreate [] 7 2), balance := .ok 1000,
    probabilityYes := .ok (73/100),
    marketData := .ok { baseAssetMinPriceTick := -16000,
                        baseAssetMaxPriceTick := -200, currentPrice := 1/2 },
    createOk := .ok () }

/-- A monitoring batch item whose price read succeeds. -/
def itemA : PositionTracker.CheckItem :=
  { state := { consecutiveDeviations := 0, cooldownEnd := none,
               lastChecked := 0 },
    targetPrice := 100, priceRead := .ok 103, now := 0 }

/-- A monitoring batch item whose price read fails. -/
def itemB : PositionTracker.CheckItem :=
  { state := { consecutiveDeviations := 1, cooldownEnd := none,
               lastChecked := 0 },
    targetPrice := 100, priceRead := .error .chainRead, now := 5 }

end Loom

open Loom

/-! ### Helper lemmas (shared; not tied to a single claim) -/

theorem Loom.jsRound_le (q : ℚ) : (jsRound q : ℚ) ≤ q + 1/2 := by
  unfold jsRound
  exact Int.floor_le (q + 1/2)

theorem Loom.le_jsRound (q : ℚ) : q - 1/2 ≤ (jsRound q : ℚ) := by
  unfold jsRound
  have h := Int.sub_one_lt_floor (q + 1/2)
  have : q + 1/2 - 1 = q - 1/2 := by ring
  rw [this] at h
  exact le_of_lt h

theorem Loom.jsRound_add_int (q : ℚ) (n : ℤ) : jsRound (q + n) = jsRound q + n := by
  unfold jsRound
  rw [add_right_comm, Int.floor_add_int]

theorem Loom.PriceModel.dvd_nearestUsableTick (t s : ℤ) :
    s ∣ nearestUsableTick t s :=
  dvd_mul_left s (jsRound ((t : ℚ) / (s : ℚ)))

theorem Loom.PriceModel.nearestUsableTick_le (t : ℤ) :
    (nearestUsableTick t 200 : ℚ) ≤ (t : ℚ) + 100 := by
  unfold nearestUsableTick
  push_cast
  have h := jsRound_le ((t : ℚ) / 200)
  nlinarith [h]

theorem Loom.PriceModel.le_nearestUsableTick (t : ℤ) :
    (t : ℚ) - 100 ≤ (nearestUsableTick t 200 : ℚ) := by
  unfold nearestUsableTick
  push_cast
  have h := le_jsRound ((t : ℚ) / 200)
  nlinarith [h]

theorem Loom.PriceModel.nearestUsableTick_shift (t : ℤ) :
    nearestUsableTick (t + 2000) 200 = nearestUsableTick t 200 + 2000 := by
  unfold nearestUsableTick
  have hc : ((t + 2000 : ℤ) : ℚ) / ((200 : ℤ) : ℚ) =
      (t : ℚ) / ((200 : ℤ) : ℚ) + ((10 : ℤ) : ℚ) := by
    push_cast
    ring
  rw [hc, jsRound_add_int]
  ring

/-- Characterization of `priceToTicks` when no market bounds are supplied. -/
theorem Loom.PriceModel.priceToTicks_none_eq (log : ℚ → ℚ) (tp cr : ℚ) (ct : ℤ) :
    priceToTicks log tp ct cr none none =
      if snappedUpperTick log tp cr ≤ snappedLowerTick log tp cr
      then fallbackTicks ct
      else (snappedLowerTick log tp cr, snappedUpperTick log tp cr) := by
  unfold priceToTicks priceToTicksTry
  by_cases h : snappedUpperTick log tp cr ≤ snappedLowerTick log tp cr <;>
    simp [h, ge_iff_le]

/-- Characterization of `priceToTicks` when both market bounds are
supplied. -/
theorem Loom.PriceModel.priceToTicks_some_eq (log : ℚ → ℚ) (tp cr : ℚ)
    (ct mn mx : ℤ) :
    priceToTicks log tp ct cr (some mn) (some mx) =
      if min (snappedUpperTick log tp cr) mx ≤ max (snappedLowerTick log tp cr) mn
      then (mn, mx)
      else (max (snappedLowerTick log tp cr) mn,
            min (snappedUpperTick log tp cr) mx) := by
  unfold priceToTicks priceToTicksTry
  by_cases h : min (snappedUpperTick log tp cr) mx ≤
      max (snappedLowerTick log tp cr) mn
  · by_cases h2 : mx ≤ mn <;> simp [h, h2, ge_iff_le]
  · simp [h, ge_iff_le]

theorem Loom.PriceModel.fallbackTicks_eq (ct : ℤ) :
    fallbackTicks ct =
      (nearestUsableTick (ct - 1000) 200, nearestUsableTick (ct + 1000) 200) := by
  unfold fallbackTicks tickSpacing
  norm_num

theorem Loom.PriceModel.fallbackTicks_lt (ct : ℤ) :
    (fallbackTicks ct).1 < (fallbackTicks ct).2 := by
  rw [fallbackTicks_eq]
  have h : ct + 1000 = (ct - 1000) + 2000 := by ring
  rw [h, nearestUsableTick_shift]
  omega

theorem Loom.dvd_max_of_dvd {a b s : ℤ} (ha : s ∣ a) (hb : s ∣ b) :
    s ∣ max a b := by
  rcases max_choice a b with h | h <;> rw [h] <;> assumption

theorem Loom.dvd_min_of_dvd {a b s : ℤ} (ha : s ∣ a) (hb : s ∣ b) :
    s ∣ min a b := by
  rcases min_choice a b with h | h <;> rw [h] <;> assumption

/-- Snapped ticks under the degenerate constant log model: both raw ticks
are `1/1 = 1` and both snapped ticks are `0`. -/
theorem Loom.PriceModel.snapped_logStub (tp cr : ℚ) :
    snappedLowerTick logStub tp cr = 0 ∧ snappedUpperTick logStub tp cr = 0 := by
  unfold snappedLowerTick snappedUpperTick rawLowerTick rawUpperTick
    nearestUsableTick tickSpacing logStub jsRound
  norm_num

/-- Snapped ticks under the `logHalf` model for
`targetPrice = 0.5`, `concentrationRange = 0.05`: the computed snapped range
is `[-7400, -6400]`, matching the float evaluation of the source. -/
theorem Loom.PriceModel.snapped_logHalf :
    snappedLowerTick logHalf (1/2) (1/20) = -7400 ∧
    snappedUpperTick logHalf (1/2) (1/20) = -6400 := by
  have hlp : lowerPrice (1/2) (1/20) = 19/40 := by
    unfold lowerPrice
    norm_num
  have hup : upperPrice (1/2) (1/20) = 21/40 := by
    unfold upperPrice
    norm_num
  have hfloor : (⌊rawLowerTick logHalf (1/2) (1/20)⌋ : ℤ) = -7445 := by
    unfold rawLowerTick
    rw [hlp]
    unfold logHalf
    norm_num
  have hceil : (⌈rawUpperTick logHalf (1/2) (1/20)⌉ : ℤ) = -6443 := by
    unfold rawUpperTick
    rw [hup]
    unfold logHalf
    rw [Int.ceil_eq_iff]
    constructor <;> norm_num
  constructor
  · unfold snappedLowerTick nearestUsableTick tickSpacing jsRound
    rw [hfloor]
    norm_num
  · unfold snappedUpperTick nearestUsableTick tickSpacing jsRound
    rw [hceil]
    norm_num

theorem Loom.PriceModel.dvd_snappedLowerTick (log : ℚ → ℚ) (tp cr : ℚ) :
    (200 : ℤ) ∣ snappedLowerTick log tp cr := by
  unfold snappedLowerTick tickSpacing
  exact dvd_nearestUsableTick _ _

theorem Loom.PriceModel.dvd_snappedUpperTick (log : ℚ → ℚ) (tp cr : ℚ) :
    (200 : ℤ) ∣ snappedUpperTick log tp cr := by
  unfold snappedUpperTick tickSpacing
  exact dvd_nearestUsableTick _ _

/-! ### C1: priceToTicks returns an ordered, spacing-aligned range -/

/-- C1 counterexample: with supplied market tick bounds that are not
multiples of 200 the function returns them verbatim (here `(-100, 100)`),
and with inverted supplied bounds it returns an inverted range
(here `(300, 100)`), so the claim fails for arbitrary supplied bounds.
Both outcomes are forced by the bound-fallback paths and are independent of
the log model. -/
theorem priceToTicks_any_bounds_cex :
    (PriceModel.priceToTicks logStub (1/2) 0 (1/20) (some (-100)) (some 100) =
        (-100, 100) ∧
      ¬ ((200 : ℤ) ∣ (-100 : ℤ))) ∧
    (PriceModel.priceToTicks logStub (1/2) 0 (1/20) (some 300) (some 100) =
        (300, 100) ∧
      ¬ ((300 : ℤ) < 100)) := by
  obtain ⟨hl, hu⟩ := PriceModel.snapped_logStub (1/2) (1/20)
  refine ⟨⟨?_, by decide⟩, ⟨?_, by decide⟩⟩
  · rw [PriceModel.priceToTicks_some_eq, hl, hu]
    norm_num
  · rw [PriceModel.priceToTicks_some_eq, hl, hu]
    norm_num

/-- C1 amended: for every log model and every input, `priceToTicks` returns
`lowerTick < upperTick` with both ticks exact multiples of 200, provided
that either no market tick bounds are supplied, or the supplied bounds are
themselves ordered (`mn < mx`) and multiples of 200.  (With arbitrary
supplied bounds the function can return them verbatim, unordered or
unaligned.) -/
theorem priceToTicks_valid_range (log : ℚ → ℚ) (tp cr : ℚ) (ct mn mx : ℤ)
    (hlt : mn < mx) (hmn : (200 : ℤ) ∣ mn) (hmx : (200 : ℤ) ∣ mx) :
    ((PriceModel.priceToTicks log tp ct cr none none).1 <
        (PriceModel.priceToTicks log tp ct cr none none).2 ∧
      (200 : ℤ) ∣ (PriceModel.priceToTicks log tp ct cr none none).1 ∧
      (200 : ℤ) ∣ (PriceModel.priceToTicks log tp ct cr none none).2) ∧
    ((PriceModel.priceToTicks log tp ct cr (some mn) (some mx)).1 <
        (PriceModel.priceToTicks log tp ct cr (some mn) (some mx)).2 ∧
      (200 : ℤ) ∣ (PriceModel.priceToTicks log tp ct cr (some mn) (some mx)).1 ∧
      (200 : ℤ) ∣ (PriceModel.priceToTicks log tp ct cr (some mn) (some mx)).2) := by
  constructor
  · rw [PriceModel.priceToTicks_none_eq]
    by_cases h : PriceModel.snappedUpperTick log tp cr ≤
        PriceModel.snappedLowerTick log tp cr
    · rw [if_pos h, PriceModel.fallbackTicks_eq]
      have hshift := PriceModel.nearestUsableTick_shift (ct - 1000)
      have harg : ct - 1000 + 2000 = ct + 1000 := by ring
      rw [harg] at hshift
      refine ⟨?_, PriceModel.dvd_nearestUsableTick _ _,
        PriceModel.dvd_nearestUsableTick _ _⟩
      rw [hshift]
      omega
    · rw [if_neg h]
      exact ⟨lt_of_not_le h, PriceModel.dvd_snappedLowerTick log tp cr,
        PriceModel.dvd_snappedUpperTick log tp cr⟩
  · rw [PriceModel.priceToTicks_some_eq]
    by_cases h : min (PriceModel.snappedUpperTick log tp cr) mx ≤
        max (PriceModel.snappedLowerTick log tp cr) mn
    · rw [if_pos h]
      exact ⟨hlt, hmn, hmx⟩
    · rw [if_neg h]
      exact ⟨lt_of_not_le h,
        dvd_max_of_dvd (PriceModel.dvd_snappedLowerTick log tp cr) hmn,
        dvd_min_of_dvd (PriceModel.dvd_snappedUpperTick log tp cr) hmx⟩

/-- Witness for C1 at a concrete input with aligned, ordered bounds. -/
theorem priceToTicks_valid_range_witness :
    ((PriceModel.priceToTicks logHalf (1/2) 0 (1/20) none none).1 <
        (PriceModel.priceToTicks logHalf (1/2) 0 (1/20) none none).2 ∧
      (200 : ℤ) ∣ (PriceModel.priceToTicks logHalf (1/2) 0 (1/20) none none).1 ∧
      (200 : ℤ) ∣ (PriceModel.priceToTicks logHalf (1/2) 0 (1/20) none none).2) ∧
    ((PriceModel.priceToTicks logHalf (1/2) 0 (1/20)
          (some (-16000)) (some (-200))).1 <
        (PriceModel.priceToTicks logHalf (1/2) 0 (1/20)
          (some (-16000)) (some (-200))).2 ∧
      (200 : ℤ) ∣ (PriceModel.priceToTicks logHalf (1/2) 0 (1/20)
          (some (-16000)) (some (-200))).1 ∧
      (200 : ℤ) ∣ (PriceModel.priceToTicks logHalf (1/2) 0 (1/20)
          (some (-16000)) (some (-200))).2) :=
  priceToTicks_valid_range logHalf (1/2) (1/20) 0 (-16000) (-200)
    (by decide) (by decide) (by decide)

/-! ### C2: the internal InvalidTickRange error does not propagate -/

/-- C2 counterexample: at a concrete no-bounds input whose snapped range is
degenerate (both snapped ticks 0), the function does not propagate any
error; it returns the fixed-width fallback range `(-1000, 1000)` around
`currentTick = 0`. -/
theorem priceToTicks_error_cex :
    PriceModel.snappedLowerTick logStub (1/2) (1/20) =
      PriceModel.snappedUpperTick logStub (1/2) (1/20) ∧
    PriceModel.priceToTicks logStub (1/2) 0 (1/20) none none = (-1000, 1000) := by
  obtain ⟨hl, hu⟩ := PriceModel.snapped_logStub (1/2) (1/20)
  constructor
  · rw [hl, hu]
  · rw [PriceModel.priceToTicks_none_eq, if_pos (by rw [hl, hu]),
      PriceModel.fallbackTicks_eq]
    unfold PriceModel.nearestUsableTick jsRound
    norm_num

/-- C2 amended: when no market bounds are supplied and the snapped range is
degenerate (`lowerTick >= upperTick`), the `try` body does raise
`InvalidTickRange`, but `priceToTicks` catches its own error and returns the
fallback range centered on `currentTick` (±1000 ticks snapped to spacing);
no error reaches the caller. -/
theorem priceToTicks_degenerate_fallback (log : ℚ → ℚ) (tp cr : ℚ) (ct : ℤ)
    (h : PriceModel.snappedUpperTick log tp cr ≤
      PriceModel.snappedLowerTick log tp cr) :
    PriceModel.priceToTicksTry log tp cr none none =
      .error .invalidTickRange ∧
    PriceModel.priceToTicks log tp ct cr none none =
      PriceModel.fallbackTicks ct := by
  constructor
  · unfold PriceModel.priceToTicksTry
    simp [ge_iff_le, h]
  · rw [PriceModel.priceToTicks_none_eq, if_pos h]

/-- Witness for C2 under the degenerate log model. -/
theorem priceToTicks_degenerate_fallback_witness :
    PriceModel.priceToTicksTry logStub (1/2) (1/20) none none =
      .error .invalidTickRange ∧
    PriceModel.priceToTicks logStub (1/2) 7 (1/20) none none =
      PriceModel.fallbackTicks 7 :=
  priceToTicks_degenerate_fallback logStub (1/2) (1/20) 7
    (le_of_eq (by
      obtain ⟨hl, hu⟩ := PriceModel.snapped_logStub (1/2) (1/20)
      rw [hl, hu]))

/-! ### C5: market-bound clamping and full-range fallback -/

/-- C5: with market tick bounds supplied, the snapped computed ticks are
clamped to `lower = max(lower, marketMinTick)`,
`upper = min(upper, marketMaxTick)`; whenever the clamp inverts the range
(`lower >= upper`) the computed range is discarded and exactly
`(marketMinTick, marketMaxTick)` is returned. -/
theorem priceToTicks_clamps_to_market_bounds (log : ℚ → ℚ) (tp cr : ℚ)
    (ct mn mx : ℤ) :
    PriceModel.priceToTicks log tp ct cr (some mn) (some mx) =
      if min (PriceModel.snappedUpperTick log tp cr) mx ≤
          max (PriceModel.snappedLowerTick log tp cr) mn
      then (mn, mx)
      else (max (PriceModel.snappedLowerTick log tp cr) mn,
            min (PriceModel.snappedUpperTick log tp cr) mx) :=
  PriceModel.priceToTicks_some_eq log tp cr ct mn mx

/-! ### C6: the snapped range versus the raw range -/

/-- C6 counterexample: for `targetPrice = 0.98`,
`concentrationRange = 0.01` (raw lower tick ≈ −253.19), flooring and then
snapping rounds the lower tick up to −200, which is strictly above the raw
lower tick — the snapped range is narrower than the raw range on this
side. -/
theorem snapped_narrower_cex :
    PriceModel.snappedLowerTick logAt975 (98/100) (1/100) = -200 ∧
    ¬ ((PriceModel.snappedLowerTick logAt975 (98/100) (1/100) : ℚ) ≤
        PriceModel.rawLowerTick logAt975 (98/100) (1/100)) := by
  have hlp : PriceModel.lowerPrice (98/100) (1/100) = 39/40 := by
    unfold PriceModel.lowerPrice
    norm_num
  have hraw : PriceModel.rawLowerTick logAt975 (98/100) (1/100) =
      -25317800/99995 := by
    unfold PriceModel.rawLowerTick
    rw [hlp]
    unfold logAt975
    norm_num
  have hsnap : PriceModel.snappedLowerTick logAt975 (98/100) (1/100) = -200 := by
    unfold PriceModel.snappedLowerTick PriceModel.nearestUsableTick
      PriceModel.tickSpacing jsRound
    rw [hraw]
    norm_num
  refine ⟨hsnap, ?_⟩
  rw [hsnap, hraw]
  norm_num

/-- C6 amended: flooring the raw lower tick and ceiling the raw upper tick
before snapping bounds the narrowing at half a tick spacing per side: the
snapped lower tick is at most `rawLowerTick + 100` and the snapped upper
tick is at least `rawUpperTick - 100` (the snap rounds to the nearest
multiple of 200 and can move a bound inward by up to 100 ticks). -/
theorem snapped_range_within_half_spacing (log : ℚ → ℚ) (tp cr : ℚ) :
    (PriceModel.snappedLowerTick log tp cr : ℚ) ≤
      PriceModel.rawLowerTick log tp cr + 100 ∧
    PriceModel.rawUpperTick log tp cr - 100 ≤
      (PriceModel.snappedUpperTick log tp cr : ℚ) := by
  constructor
  · have h1 : (PriceModel.nearestUsableTick
        ⌊PriceModel.rawLowerTick log tp cr⌋ 200 : ℚ) ≤
        (⌊PriceModel.rawLowerTick log tp cr⌋ : ℚ) + 100 :=
      PriceModel.nearestUsableTick_le _
    have h2 : ((⌊PriceModel.rawLowerTick log tp cr⌋ : ℤ) : ℚ) ≤
        PriceModel.rawLowerTick log tp cr :=
      Int.floor_le _
    unfold PriceModel.snappedLowerTick PriceModel.tickSpacing
    linarith
  · have h1 : ((⌈PriceModel.rawUpperTick log tp cr⌉ : ℤ) : ℚ) - 100 ≤
        (PriceModel.nearestUsableTick
          ⌈PriceModel.rawUpperTick log tp cr⌉ 200 : ℚ) :=
      PriceModel.le_nearestUsableTick _
    have h2 : PriceModel.rawUpperTick log tp cr ≤
        ((⌈PriceModel.rawUpperTick log tp cr⌉ : ℤ) : ℚ) :=
      Int.le_ceil _
    unfold PriceModel.snappedUpperTick PriceModel.tickSpacing
    linarith

/-! ### C7: likelihoodToPrice validation and clamping -/

/-- Reduction of `likelihoodToPrice` on a non-`NaN` value. -/
theorem Loom.PriceModel.likelihoodToPrice_val (r a b : ℚ) :
    likelihoodToPrice (.val r) a b =
      if 0 ≤ r ∧ r ≤ 1 then .ok (max a (min b r))
      else .error .invalidLikelihood := by
  by_cases h0 : 0 ≤ r <;> by_cases h1 : r ≤ 1 <;>
    simp [likelihoodToPrice, isValidLikelihood, h0, h1]

/-- C7: `likelihoodToPrice(likelihood, 0.01, 0.99)` throws the
invalid-likelihood error exactly when the likelihood is `NaN` or outside
`[0,1]`; for a likelihood in `[0,1]` it returns the clamp to
`[minPrice, maxPrice]`, and returns the likelihood unchanged when it already
lies in `[minPrice, maxPrice]`. -/
theorem likelihoodToPrice_spec (r : ℚ) :
    PriceModel.likelihoodToPrice .nan (1/100) (99/100) =
      .error .invalidLikelihood ∧
    ((r < 0 ∨ 1 < r) →
      PriceModel.likelihoodToPrice (.val r) (1/100) (99/100) =
        .error .invalidLikelihood) ∧
    (0 ≤ r → r ≤ 1 →
      PriceModel.likelihoodToPrice (.val r) (1/100) (99/100) =
        .ok (max (1/100) (min (99/100) r))) ∧
    (1/100 ≤ r → r ≤ 99/100 →
      PriceModel.likelihoodToPrice (.val r) (1/100) (99/100) = .ok r) := by
  refine ⟨rfl, ?_, ?_, ?_⟩
  · intro h
    rw [PriceModel.likelihoodToPrice_val, if_neg]
    rintro ⟨h0, h1⟩
    rcases h with h | h
    · exact absurd h0 (not_le.mpr h)
    · exact absurd h1 (not_le.mpr h)
  · intro h0 h1
    rw [PriceModel.likelihoodToPrice_val, if_pos ⟨h0, h1⟩]
  · intro hlo hhi
    have h0 : (0:ℚ) ≤ r := by linarith
    have h1 : r ≤ 1 := by linarith
    rw [PriceModel.likelihoodToPrice_val, if_pos ⟨h0, h1⟩,
      min_eq_right hhi, max_eq_right hlo]

/-- Witness for C7 at concrete likelihoods. -/
theorem likelihoodToPrice_spec_witness :
    PriceModel.likelihoodToPrice (.val (1/2)) (1/100) (99/100) = .ok (1/2) ∧
    PriceModel.likelihoodToPrice (.val 2) (1/100) (99/100) =
      .error .invalidLikelihood :=
  ⟨(likelihoodToPrice_spec (1/2)).2.2.2 (by norm_num) (by norm_num),
   (likelihoodToPrice_spec 2).2.1 (Or.inr (by norm_num))⟩

/-! ### C9: calculatePriceRange versus the priceToTicks bound computation -/

/-- C9 counterexample: the bound computation of
`AttestationParser.priceToTicks` (multiplicative, `targetPrice * (1 - cr/2)`)
differs numerically from `LPManager.calculatePriceRange` (additive with an
epsilon clamp) at `targetPrice = 0.5`, `concentrationRange = 0.05`. -/
theorem calculatePriceRange_attestation_cex :
    AttestationParser.lowerPrice (1/2) (1/20) = 39/80 ∧
    (LPManager.calculatePriceRange (1/20) (1/2)).lower = 19/40 ∧
    AttestationParser.lowerPrice (1/2) (1/20) ≠
      (LPManager.calculatePriceRange (1/20) (1/2)).lower := by
  have h1 : AttestationParser.lowerPrice (1/2) (1/20) = 39/80 := by
    unfold AttestationParser.lowerPrice
    norm_num
  have h2 : (LPManager.calculatePriceRange (1/20) (1/2)).lower = 19/40 := by
    unfold LPManager.calculatePriceRange
    norm_num
  refine ⟨h1, h2, ?_⟩
  rw [h1, h2]
  norm_num

/-- C9 amended: `calculatePriceRange` uses exactly the bound computation of
`PriceModel.priceToTicks` (`lower = max(1e-6, tp - cr/2)`,
`upper = min(1 - 1e-6, tp + cr/2)`, `center = tp`); the
`AttestationParser.priceToTicks` variant is the one that differs. -/
theorem calculatePriceRange_consistent (concentrationRange targetPrice : ℚ) :
    (LPManager.calculatePriceRange concentrationRange targetPrice).lower =
      PriceModel.lowerPrice targetPrice concentrationRange ∧
    (LPManager.calculatePriceRange concentrationRange targetPrice).upper =
      PriceModel.upperPrice targetPrice concentrationRange ∧
    (LPManager.calculatePriceRange concentrationRange targetPrice).center =
      targetPrice :=
  ⟨rfl, rfl, rfl⟩

/-! ### C10: closeLPPosition no-ops on non-LP or settled records -/

/-- C10: when the on-chain record read by `closeLPPosition` has kind other
than 1 (liquidity) or is already settled, the function returns without
issuing any chain-write call, leaves the local entity entirely unchanged
(`isActive` and `lastUpdated` untouched) and emits no `positionClosed`
event. -/
theorem closeLPPosition_noop (record : ChainPosition)
    (tx : Except LoomErr Unit) (p : LPPosition) (now : ℤ) (t : ℕ)
    (htok : p.tokenId = some t)
    (h : record.kind ≠ 1 ∨ record.isSettled = true) :
    LPManager.closeLPPosition (.ok record) tx p now =
      .ok { position := p
            chainWriteIssued := false
            positionClosedEmitted := false } := by
  unfold LPManager.closeLPPosition
  rw [htok]
  have hcond : (record.kind != 1 || record.isSettled) = true := by
    rcases h with h | h
    · simp [h]
    · simp [h]
  simp [hcond]

/-- Witness for C10: a settled trader record (kind 2). -/
theorem closeLPPosition_noop_witness :
    LPManager.closeLPPosition
        (.ok { tokenId := 7, kind := 2, marketId := 3, isSettled := false })
        (.ok ()) posW 99 =
      .ok { position := posW
            chainWriteIssued := false
            positionClosedEmitted := false } :=
  closeLPPosition_noop _ _ _ _ 7 rfl (Or.inl (by decide))

/-! ### C3: deviation hysteresis and cooldown of the position tracker -/

/-- C3: for a tracked active position not in cooldown with a zero counter,
a deviating price read increments the consecutive-deviation counter without
emitting; the second consecutive deviating read emits exactly one adjustment
request, resets the counter to 0 and sets the cooldown expiry to
`now + cooldownPeriod`; a further read during the cooldown is skipped
entirely (state unchanged, nothing emitted); an in-range read resets the
counter to 0 and emits nothing. -/
theorem position_hysteresis (threshold : ℚ) (cooldownPeriod : ℤ)
    (st : PositionTracker.TrackedPosition) (tp p1 p2 q : ℚ)
    (now1 now2 now3 : ℤ)
    (hcd : st.consecutiveDeviations = 0)
    (h1 : PositionTracker.isInCooldown st.cooldownEnd now1 = false)
    (h2 : PositionTracker.isInCooldown st.cooldownEnd now2 = false)
    (hdev1 : LPManager.isPriceOutsideDeviation threshold p1 tp = true)
    (hdev2 : LPManager.isPriceOutsideDeviation threshold p2 tp = true)
    (hin : LPManager.isPriceOutsideDeviation threshold q tp = false)
    (h3 : now3 < now2 + cooldownPeriod) :
    PositionTracker.checkTick threshold cooldownPeriod st tp p1 now1 =
      ({ st with consecutiveDeviations := 1, lastChecked := now1 }, false) ∧
    PositionTracker.checkTick threshold cooldownPeriod
        { st with consecutiveDeviations := 1, lastChecked := now1 }
        tp p2 now2 =
      ({ consecutiveDeviations := 0
         cooldownEnd := some (now2 + cooldownPeriod)
         lastChecked := now2 }, true) ∧
    PositionTracker.checkTick threshold cooldownPeriod
        { consecutiveDeviations := 0
          cooldownEnd := some (now2 + cooldownPeriod)
          lastChecked := now2 } tp p2 now3 =
      ({ consecutiveDeviations := 0
         cooldownEnd := some (now2 + cooldownPeriod)
         lastChecked := now2 }, false) ∧
    PositionTracker.checkTick threshold cooldownPeriod
        { st with consecutiveDeviations := 1, lastChecked := now1 }
        tp q now2 =
      ({ st with consecutiveDeviations := 0, lastChecked := now2 }, false) := by
  refine ⟨?_, ?_, ?_, ?_⟩
  · simp [PositionTracker.checkTick, h1, hdev1, hcd,
      PositionTracker.requiredConsecutiveDeviations]
  · simp [PositionTracker.checkTick, h2, hdev2,
      PositionTracker.requiredConsecutiveDeviations]
  · simp [PositionTracker.checkTick, PositionTracker.isInCooldown, h3]
  · simp [PositionTracker.checkTick, h2, hin]

/-- Witness for C3: the scenario of the spec (`targetPrice = 100`,
`deviationThreshold = 0.02`, deviating reads at price 103, in-range read at
price 99, cooldown period 1000). -/
theorem position_hysteresis_witness :
    PositionTracker.checkTick (2/100) 1000
        { consecutiveDeviations := 0, cooldownEnd := none, lastChecked := 0 }
        100 103 0 =
      ({ consecutiveDeviations := 1, cooldownEnd := none, lastChecked := 0 },
        false) ∧
    PositionTracker.checkTick (2/100) 1000
        { consecutiveDeviations := 1, cooldownEnd := none, lastChecked := 0 }
        100 103 60 =
      ({ consecutiveDeviations := 0, cooldownEnd := some 1060,
         lastChecked := 60 }, true) ∧
    PositionTracker.checkTick (2/100) 1000
        { consecutiveDeviations := 0, cooldownEnd := some 1060,
          lastChecked := 60 } 100 103 500 =
      ({ consecutiveDeviations := 0, cooldownEnd := some 1060,
         lastChecked := 60 }, false) ∧
    PositionTracker.checkTick (2/100) 1000
        { consecutiveDeviations := 1, cooldownEnd := none, lastChecked := 0 }
        100 99 60 =
      ({ consecutiveDeviations := 0, cooldownEnd := none, lastChecked := 60 },
        false) :=
  position_hysteresis (2/100) 1000
    { consecutiveDeviations := 0, cooldownEnd := none, lastChecked := 0 }
    100 103 103 99 0 60 500 rfl rfl rfl
    (by simp only [LPManager.isPriceOutsideDeviation, decide_eq_true_eq]
        norm_num)
    (by simp only [LPManager.isPriceOutsideDeviation, decide_eq_true_eq]
        norm_num)
    (by simp only [LPManager.isPriceOutsideDeviation,
          decide_eq_false_iff_not]
        norm_num)
    (by decide)

/-! ### C4: the duplicate-position guard of the market scan -/

/-- After a successful creation the fresh position enumeration contains an
active LP position for the market, so the existing-position lookup finds
one. -/
theorem Loom.LPManager.getCurrentLPPosition_after_create
    (ps : List ChainPosition) (tid mid : ℕ) :
    (getCurrentLPPosition (chainAfterCreate ps tid mid) mid).isSome = true := by
  unfold getCurrentLPPosition chainAfterCreate
  rw [List.find?_append]
  cases h : List.find?
      (fun p => p.kind == 1 && !p.isSettled && p.marketId == mid) ps with
  | some p => simp [Option.or, h]
  | none => simp [Option.or, h, List.find?]

/-- C4: when the open-position logic runs a second time for a market whose
first invocation succeeded (so the freshly re-read position enumeration
contains the minted, unsettled LP position for that market), the market is
skipped at the existing-position check, before any chain-write call is
issued. -/
theorem duplicate_position_guard (log : ℚ → ℚ) (cr : ℚ)
    (required now : ℤ) (dryRun : Bool) (env : MarketEnv) (m : MarketSummary)
    (ps : List ChainPosition) (tid g : ℕ)
    (hg : m.groupAddress = some g)
    (hexp : expiredSkip now m = false)
    (hchain : env.chainPositions = .ok (chainAfterCreate ps tid m.marketId)) :
    MarketLPAgent.processMarket log cr required now dryRun env m =
      .ok .skippedExisting ∧
    issuesChainWrite .skippedExisting = false := by
  refine ⟨?_, rfl⟩
  have hsome := Loom.LPManager.getCurrentLPPosition_after_create ps tid
    m.marketId
  obtain ⟨p, hp⟩ := Option.isSome_iff_exists.mp hsome
  unfold MarketLPAgent.processMarket
  rw [hg]
  simp only [hexp, hchain, hp, Bool.false_eq_true, if_false]

/-- Witness for C4: market 2 after a creation that minted token 7. -/
theorem duplicate_position_guard_witness :
    MarketLPAgent.processMarket logStub (1/20) 100 0 false envDup mGood =
      .ok .skippedExisting ∧
    issuesChainWrite .skippedExisting = false :=
  duplicate_position_guard logStub (1/20) 100 0 false envDup mGood [] 7 1
    rfl rfl rfl

/-! ### C8: error propagation across batch iterations -/

/-- C8 counterexample: in the market scan of `runOnce` there is no
per-market catch — the failing chain read of the first market aborts the
whole run with the error, even though the next market in the same run was
processable (its step returns a created position).  The second market is
never evaluated by the loop. -/
theorem batch_abort_cex :
    MarketLPAgent.runOnceLoop stepEx [mFail, mGood] = .error .chainRead ∧
    stepEx mGood = .ok (.created (-16000) (-200)) := by
  have hFail : stepEx mFail = .error .chainRead := rfl
  have hGood : stepEx mGood = .ok (.created (-16000) (-200)) := by
    have h1 : PriceModel.likelihoodToPrice (.val (73/100)) (1/100) (99/100) =
        .ok (73/100) := by
      rw [PriceModel.likelihoodToPrice_val, if_pos (by norm_num)]
      norm_num
    have h2 : currentTickOf logStub (1/2) = 1 := by
      unfold currentTickOf logStub
      norm_num
    have h3 : PriceModel.priceToTicks logStub (73/100) 1 (1/20)
        (some (-16000)) (some (-200)) = (-16000, -200) := by
      obtain ⟨hl, hu⟩ := PriceModel.snapped_logStub (73/100) (1/20)
      rw [PriceModel.priceToTicks_some_eq, hl, hu]
      norm_num
    unfold stepEx
    rw [if_neg (by decide : ¬ mGood.marketId = 1)]
    unfold MarketLPAgent.processMarket
    simp only [mGood, envGood, expiredSkip, LPManager.getCurrentLPPosition,
      List.find?, h1, h2, h3]
    norm_num
  refine ⟨?_, hGood⟩
  unfold MarketLPAgent.runOnceLoop
  rw [hFail]

/-- C8 amended: the per-position monitoring batch catches each item's error
inside `checkPosition` (an erroring item yields an unchanged state and no
emission, and the remaining items are still evaluated — the batch
distributes over concatenation), whereas the per-market scan of `runOnce`
has no per-market catch: an error from one market's processing aborts the
whole run, and the remaining markets of that run are not evaluated. -/
theorem batch_error_policy (threshold : ℚ) (cooldownPeriod : ℤ)
    (xs ys : List PositionTracker.CheckItem)
    (item : PositionTracker.CheckItem)
    (items : List PositionTracker.CheckItem) (e2 : LoomErr)
    (step : MarketSummary → Except LoomErr MarketAction)
    (m : MarketSummary) (rest : List MarketSummary) (e : LoomErr)
    (h : step m = .error e) :
    PositionTracker.checkAllPositions threshold cooldownPeriod (xs ++ ys) =
      PositionTracker.checkAllPositions threshold cooldownPeriod xs ++
        PositionTracker.checkAllPositions threshold cooldownPeriod ys ∧
    (item.priceRead = .error e2 →
      PositionTracker.checkAllPositions threshold cooldownPeriod
          (item :: items) =
        (item.state, false) ::
          PositionTracker.checkAllPositions threshold cooldownPeriod items) ∧
    MarketLPAgent.runOnceLoop step (m :: rest) = .error e := by
  refine ⟨?_, ?_, ?_⟩
  · induction xs with
    | nil => simp [PositionTracker.checkAllPositions]
    | cons it tl ih =>
      simp only [List.cons_append, PositionTracker.checkAllPositions,
        List.append_eq, ih]
  · intro hitem
    have hE : PositionTracker.checkPositionE threshold cooldownPeriod item =
        .error e2 := by
      unfold PositionTracker.checkPositionE
      rw [hitem]
    simp only [PositionTracker.checkAllPositions, hE]
  · unfold MarketLPAgent.runOnceLoop
    rw [h]

/-- Witness for C8 at concrete batches. -/
theorem batch_error_policy_witness :
    PositionTracker.checkAllPositions (2/100) 1000 ([itemA] ++ [itemB]) =
      PositionTracker.checkAllPositions (2/100) 1000 [itemA] ++
        PositionTracker.checkAllPositions (2/100) 1000 [itemB] ∧
    (itemB.priceRead = .error .chainRead →
      PositionTracker.checkAllPositions (2/100) 1000 (itemB :: [itemA]) =
        (itemB.state, false) ::
          PositionTracker.checkAllPositions (2/100) 1000 [itemA]) ∧
    MarketLPAgent.runOnceLoop stepEx (mFail :: [mGood]) = .error .chainRead :=
  batch_error_policy (2/100) 1000 [itemA] [itemB] itemB [itemA] .chainRead
    stepEx mFail [mGood] .chainRead rfl
